import Mathlib

/-!
Shallow embedding of the base-conversion functions of
`xlcalculator/xlfunctions/engineering.py` (DEC2BIN .. HEX2DEC) together
with the value/error model they depend on.

The engineering module itself is in the sources and is embedded from the
code.  The supporting value model (`func_xltypes`: Blank / Boolean /
Number / Text, their `__int__`, `__str__` and `__bool__` coercions) and
the error classes (`xlerrors`) are not part of the given sources, so
those parts are modelled from the spec; each such definition is marked
in its doc comment.
-/

/-- Modelled from the spec: the error taxonomy (`xlerrors` is not in the
sources).  Kinds: Null, Div0, Value, Ref, Name, Num, NotAvailable. -/
inductive XlError where
  | Null | Div0 | Value | Ref | Name | Num | NotAvailable
deriving DecidableEq, Repr

/-- Outcome-level error: either a raised Excel error (`NumExcelError`,
`ValueExcelError`, ...) or an uncaught host-language (Python) exception
such as the `ValueError` raised by `int("", 2)`. -/
inductive PyErr where
  | xl (e : XlError)
  | hostError
deriving DecidableEq, Repr

/-- Modelled from the spec: the argument value model (`func_xltypes` is
not in the sources).  A `Number` carries its integer truncation
(Python `int()` truncates toward zero) and whether the underlying
decimal value is integral (`value.is_integer()`); an int-backed Number
is always integral.  Error values are classified and propagated by the
surrounding evaluator before these functions run, so they do not appear
here. -/
inductive XlValue where
  | Blank
  | Boolean (b : Bool)
  | Number (trunc : Int) (isInteger : Bool)
  | Text (s : String)
deriving DecidableEq, Repr

/-- The `places` argument slot: either the `UNUSED` sentinel default or
an explicitly supplied value (engineering.py, class `Unused`). -/
inductive XlArg where
  | unused
  | supplied (v : XlValue)
deriving DecidableEq, Repr

/-- Models the `isinstance(x, func_xltypes.Boolean)` checks. -/
def isBooleanV : XlValue → Bool
  | .Boolean _ => true
  | _ => false

/-- Modelled from the spec: Python truthiness of a `func_xltypes` value
(`not number` in HEX2DEC, whose source comment says it "covers Blank and
empty string").  Blank is falsy, Text is falsy iff empty, a Number is
falsy iff it is integral zero, a Boolean is falsy iff it is False. -/
def isFalsyV : XlValue → Bool
  | .Blank => true
  | .Text s => s.data.isEmpty
  | .Number t i => t == 0 && i
  | .Boolean b => !b

/-- Digit value of a character, as Python `int(s, base)` reads it:
0-9, A-F and a-f; any other character gets the out-of-range value 16. -/
def hexDigitVal (c : Char) : Nat :=
  if '0' ≤ c ∧ c ≤ '9' then c.toNat - 48
  else if 'A' ≤ c ∧ c ≤ 'F' then c.toNat - 55
  else if 'a' ≤ c ∧ c ≤ 'f' then c.toNat - 87
  else 16

/-- The character a digit value renders as.  Python renders hexadecimal
lowercase and every call site immediately applies `.upper()`, so the
uppercase alphabet is used directly (digits below 10 are unaffected). -/
def digitCharU (d : Nat) : Char :=
  if d < 10 then Char.ofNat (48 + d) else Char.ofNat (55 + d)

/-- Little-endian base-`b` digits, with explicit fuel so that the
definition is structurally recursive and kernel-reducible. -/
def digitsLEAux (b : Nat) : Nat → Nat → List Nat
  | 0, _ => []
  | _ + 1, 0 => []
  | n + 1, fuel + 1 => (n + 1) % b :: digitsLEAux b ((n + 1) / b) fuel

def digitsLE (b n : Nat) : List Nat := digitsLEAux b n n

/-- Python `bin(n)[2:]` / `oct(n)[2:]` / `hex(n)[2:].upper()` for a
nonnegative `n`: most-significant-first digit string, no sign, no
prefix, and `"0"` for zero. -/
def pyBaseStr (b n : Nat) : String :=
  if n = 0 then "0" else String.mk (((digitsLE b n).reverse).map digitCharU)

/-- Value of a most-significant-first digit string. -/
def parseVal (b : Nat) (s : String) : Nat :=
  s.data.foldl (fun a c => a * b + hexDigitVal c) 0

/-- Python `int(s, base)`: `none` models the `ValueError` raised on an
empty string or on a character that is not a digit of the base
(both letter cases are accepted for hexadecimal, as in Python). -/
def parseBase (b : Nat) (s : String) : Option Nat :=
  if s.data.isEmpty then none
  else if s.data.all (fun c => hexDigitVal c < b) then some (parseVal b s)
  else none

/-- Python `str.zfill` for unsigned digit strings: left-pad with zeros
up to `w` characters (no-op when the string is already long enough). -/
def pyZfill (s : String) (w : Nat) : String :=
  if w ≤ s.length then s else String.mk (List.replicate (w - s.length) '0' ++ s.data)

/-- The two's-complement reinterpretation used throughout the module:
`(value & ~mask) - (value & mask)` with `mask = 1 << (width - 1)`.
Since `value` is nonnegative, `value & ~mask` equals
`value - (value & mask)` (the two conjuncts partition the bits of
`value`), which avoids bitwise-not on unbounded integers. -/
def twosDecode (width value : Nat) : Int :=
  ((value - (value &&& (1 <<< (width - 1))) : Nat) : Int)
    - ((value &&& (1 <<< (width - 1)) : Nat) : Int)

/-- Modelled from the spec: text that parses as a base-10 integer or as
int-like float text (optional minus sign, digits, optionally a decimal
point followed by only zeros); anything else cannot be coerced to an
integer. -/
def decDigitsVal : List Char → Option Nat
  | [] => none
  | l =>
      if l.all (fun c => '0' ≤ c ∧ c ≤ '9')
      then some (l.foldl (fun a c => a * 10 + (c.toNat - 48)) 0)
      else none

/-- Modelled from the spec: parse int-like numeric text. -/
def parseIntLike (s : String) : Option Int :=
  let (neg, l) := match s.data with
    | '-' :: rest => (true, rest)
    | l => (false, l)
  let intPart := l.takeWhile (fun c => c ≠ '.')
  let rest := l.dropWhile (fun c => c ≠ '.')
  let intVal : Option Nat :=
    match rest with
    | [] => decDigitsVal intPart
    | '.' :: frac => if frac.all (fun c => c = '0') then decDigitsVal intPart else none
    | _ => none
  intVal.map (fun n => if neg then -(n : Int) else (n : Int))

/-- Modelled from the spec: Python `int()` applied to a `func_xltypes`
value (the `__int__` coercion of the missing value layer).  Blank
coerces to 0, a Number truncates toward zero, Text must parse as
int-like numeric text and otherwise raises `ValueExcelError`. -/
def pyInt : XlValue → Except PyErr Int
  | .Blank => .ok 0
  | .Boolean b => .ok (if b then 1 else 0)
  | .Number t _ => .ok t
  | .Text s =>
      match parseIntLike s with
      | some z => .ok z
      | none => .error (.xl .Value)

/-- The shared `places` prologue of every places-taking function:
Boolean places raise `ValueExcelError`; the `UNUSED` sentinel becomes
`None`; anything else is coerced with `int()` and must lie in 1..10,
otherwise `NumExcelError`. -/
def coercePlaces : XlArg → Except PyErr (Option Int)
  | .supplied (.Boolean _) => .error (.xl .Value)
  | .unused => .ok none
  | .supplied v =>
      match pyInt v with
      | .error e => .error e
      | .ok p => if ¬ (1 ≤ p ∧ p ≤ 10) then .error (.xl .Num) else .ok (some p)

/-- The shared `number`-to-digit-string block of the base-to-base and
TO-decimal functions: Boolean raises `ValueExcelError`; Blank becomes
"0"; a Number must be integral (`NumExcelError` otherwise) and renders
as `str(int(number))`; Text is taken verbatim. -/
def coerceBaseStr : XlValue → Except PyErr String
  | .Boolean _ => .error (.xl .Value)
  | .Blank => .ok "0"
  | .Number t isInt => if ¬ isInt then .error (.xl .Num) else .ok (toString t)
  | .Text s => .ok s

/-- The raw encoded digit string of a signed value: add `1 << width`
when negative, then render in the target base. -/
def rawEncode (base width : Nat) (n : Int) : String :=
  pyBaseStr base (if n < 0 then n + ((1 <<< width : Nat) : Int) else n).toNat

/-- The shared epilogue of every string-returning function: render the
(sign-adjusted) value, return it unpadded when `places` is `None`;
otherwise `desired_length` is the string length for negative values and
`places` for nonnegative ones, a too-short `desired_length` raises
`NumExcelError`, and the result is zero-filled.  `fillPlaces` records
which of the two inconsistent source variants the function uses for the
final `zfill` argument: `string.zfill(places)` when true,
`string.zfill(desired_length)` when false. -/
def encodeTail (base width : Nat) (n : Int) (pl : Option Int) (fillPlaces : Bool) :
    Except PyErr String :=
  let negative := n < 0
  let string := rawEncode base width n
  match pl with
  | none => .ok string
  | some p =>
      let desired : Int := if negative then (string.length : Int) else p
      if desired < (string.length : Int) then .error (.xl .Num)
      else .ok (pyZfill string (if fillPlaces then p.toNat else desired.toNat))

/-- The common middle section of the six base-to-base and BIN2DEC
functions, with the per-function radix, source width and signed range
check bounds: digit-alphabet check, `int(as_str, radix)`,
two's-complement decode, range check. -/
def baseCore (radix width : Nat) (lo hi : Int) (number : XlValue) : Except PyErr Int :=
  match coerceBaseStr number with
  | .error e => .error e
  | .ok as_str =>
      if ¬ (as_str.data.all fun c => hexDigitVal c < radix) then .error (.xl .Num)
      else
        match parseBase radix as_str with
        | none => .error .hostError
        | some value =>
            let new_value := twosDecode width value
            if ¬ (lo ≤ new_value ∧ new_value < hi) then .error (.xl .Num)
            else .ok new_value

/-- DEC2BIN's number section: Boolean check, `int(number)`, and the
range check `-513 < number < 512`. -/
def DEC2BIN_core (number : XlValue) : Except PyErr Int :=
  if isBooleanV number then .error (.xl .Value)
  else
    match pyInt number with
    | .error e => .error e
    | .ok n => if ¬ (-513 < n ∧ n < 512) then .error (.xl .Num) else .ok n

/-- DEC2OCT's number section: range check `-(2**29) <= number < 2**29`. -/
def DEC2OCT_core (number : XlValue) : Except PyErr Int :=
  if isBooleanV number then .error (.xl .Value)
  else
    match pyInt number with
    | .error e => .error e
    | .ok n => if ¬ (-(2 ^ 29) ≤ n ∧ n < 2 ^ 29) then .error (.xl .Num) else .ok n

/-- DEC2HEX's number section: range check `-(2**39) <= number < 2**39`. -/
def DEC2HEX_core (number : XlValue) : Except PyErr Int :=
  if isBooleanV number then .error (.xl .Value)
  else
    match pyInt number with
    | .error e => .error e
    | .ok n => if ¬ (-(2 ^ 39) ≤ n ∧ n < 2 ^ 39) then .error (.xl .Num) else .ok n

/-- A string-returning conversion function: its number section, the
target base and bit width, and which `zfill` argument variant its
epilogue uses. -/
structure BaseConv where
  core : XlValue → Except PyErr Int
  tbase : Nat
  twidth : Nat
  fillP : Bool

/-- Assembly shared by all nine string-returning functions, in source
order: `places` prologue first, then the number section, then the
encode/padding epilogue. -/
def applyConv (c : BaseConv) (number : XlValue) (places : XlArg) : Except PyErr String :=
  match coercePlaces places with
  | .error e => .error e
  | .ok pl =>
      match c.core number with
      | .error e => .error e
      | .ok n => encodeTail c.tbase c.twidth n pl c.fillP

def DEC2BIN : XlValue → XlArg → Except PyErr String :=
  applyConv ⟨DEC2BIN_core, 2, 10, false⟩

def DEC2OCT : XlValue → XlArg → Except PyErr String :=
  applyConv ⟨DEC2OCT_core, 8, 30, false⟩

def DEC2HEX : XlValue → XlArg → Except PyErr String :=
  applyConv ⟨DEC2HEX_core, 16, 40, true⟩

def BIN2OCT : XlValue → XlArg → Except PyErr String :=
  applyConv ⟨baseCore 2 10 (-(2 ^ 9)) (2 ^ 9), 8, 30, true⟩

def BIN2HEX : XlValue → XlArg → Except PyErr String :=
  applyConv ⟨baseCore 2 10 (-(2 ^ 9)) (2 ^ 9), 16, 40, true⟩

def OCT2BIN : XlValue → XlArg → Except PyErr String :=
  applyConv ⟨baseCore 8 30 (-512) 512, 2, 10, true⟩

/-- OCT2HEX checks `-2**30 <= new_value < 2**30` (not `2**29`). -/
def OCT2HEX : XlValue → XlArg → Except PyErr String :=
  applyConv ⟨baseCore 8 30 (-(2 ^ 30)) (2 ^ 30), 16, 40, false⟩

def HEX2BIN : XlValue → XlArg → Except PyErr String :=
  applyConv ⟨baseCore 16 40 (-(2 ^ 9)) (2 ^ 9), 2, 10, true⟩

def HEX2OCT : XlValue → XlArg → Except PyErr String :=
  applyConv ⟨baseCore 16 40 (-(2 ^ 29)) (2 ^ 29), 8, 30, true⟩

/-- BIN2DEC returns the decoded signed value directly; its body is
exactly the shared middle section with the binary parameters. -/
def BIN2DEC : XlValue → Except PyErr Int :=
  baseCore 2 10 (-(2 ^ 9)) (2 ^ 9)

/-- OCT2DEC: the unsigned range check `0 <= value < 2**30` happens
before the decode, and the decoded value is returned unchecked. -/
def OCT2DEC (number : XlValue) : Except PyErr Int :=
  match coerceBaseStr number with
  | .error e => .error e
  | .ok as_str =>
      if ¬ (as_str.data.all fun c => hexDigitVal c < 8) then .error (.xl .Num)
      else
        match parseBase 8 as_str with
        | none => .error .hostError
        | some value =>
            if ¬ (0 ≤ (value : Int) ∧ (value : Int) < 2 ^ 30) then .error (.xl .Num)
            else .ok (twosDecode 30 value)

/-- HEX2DEC: unlike its siblings it routes every falsy argument
(Blank, the empty string, integral zero) to "0", checks Text before
Number, and range-checks the unsigned value before the decode. -/
def HEX2DEC (number : XlValue) : Except PyErr Int :=
  if isBooleanV number then .error (.xl .Value)
  else
    let as_strE : Except PyErr String :=
      if isFalsyV number then .ok "0"
      else
        match number with
        | .Text s => .ok s
        | .Number t isInt => if ¬ isInt then .error (.xl .Num) else .ok (toString t)
        | .Blank => .ok "0"
        | .Boolean _ => .error (.xl .Value)
    match as_strE with
    | .error e => .error e
    | .ok as_str =>
        if ¬ (as_str.data.all fun c => hexDigitVal c < 16) then .error (.xl .Num)
        else
          match parseBase 16 as_str with
          | none => .error .hostError
          | some value =>
              if ¬ (0 ≤ (value : Int) ∧ (value : Int) < 2 ^ 40) then .error (.xl .Num)
              else .ok (twosDecode 40 value)

/-- The nine string-returning conversions as (core, target base, target
width, zfill-variant) packages, in the order DEC2BIN, DEC2OCT, DEC2HEX,
BIN2OCT, BIN2HEX, OCT2BIN, OCT2HEX, HEX2BIN, HEX2OCT; mapping
`applyConv` over this list yields exactly those nine functions. -/
def stringConvPkgs : List BaseConv :=
  [⟨DEC2BIN_core, 2, 10, false⟩, ⟨DEC2OCT_core, 8, 30, false⟩, ⟨DEC2HEX_core, 16, 40, true⟩,
   ⟨baseCore 2 10 (-(2 ^ 9)) (2 ^ 9), 8, 30, true⟩,
   ⟨baseCore 2 10 (-(2 ^ 9)) (2 ^ 9), 16, 40, true⟩,
   ⟨baseCore 8 30 (-512) 512, 2, 10, true⟩,
   ⟨baseCore 8 30 (-(2 ^ 30)) (2 ^ 30), 16, 40, false⟩,
   ⟨baseCore 16 40 (-(2 ^ 9)) (2 ^ 9), 2, 10, true⟩,
   ⟨baseCore 16 40 (-(2 ^ 29)) (2 ^ 29), 8, 30, true⟩]

instance {ε α : Type} [DecidableEq ε] [DecidableEq α] : DecidableEq (Except ε α)
  | .ok a, .ok b =>
      if h : a = b then .isTrue (by rw [h])
      else .isFalse (by intro he; cases he; exact h rfl)
  | .ok _, .error _ => .isFalse (by intro h; cases h)
  | .error _, .ok _ => .isFalse (by intro h; cases h)
  | .error e, .error f =>
      if h : e = f then .isTrue (by rw [h])
      else .isFalse (by intro he; cases he; exact h rfl)

/-! ### Digit-string infrastructure -/

theorem digitsLEAux_eq (b : Nat) (hb : 1 < b) :
    ∀ (fuel n : Nat), n ≤ fuel → digitsLEAux b n fuel = Nat.digits b n := by
  intro fuel
  induction fuel with
  | zero =>
      intro n hn
      have : n = 0 := Nat.le_zero.mp hn
      subst this
      simp [digitsLEAux]
  | succ fuel ih =>
      intro n hn
      match n with
      | 0 => simp [digitsLEAux]
      | m + 1 =>
          have hdiv : (m + 1) / b ≤ fuel := by
            have h1 : (m + 1) / b < m + 1 := Nat.div_lt_self (Nat.succ_pos m) hb
            omega
          have hstep : digitsLEAux b (m + 1) (fuel + 1)
              = (m + 1) % b :: digitsLEAux b ((m + 1) / b) fuel := rfl
          rw [hstep, ih _ hdiv, ← Nat.digits_def' hb (Nat.succ_pos m)]

theorem digitsLE_eq (b n : Nat) (hb : 1 < b) : digitsLE b n = Nat.digits b n :=
  digitsLEAux_eq b hb n n le_rfl

theorem hexDigitVal_digitCharU : ∀ d : Nat, d < 16 → hexDigitVal (digitCharU d) = d := by
  decide

theorem foldl_mul_add (b : Nat) :
    ∀ (L : List Nat) (a : Nat),
      L.foldl (fun x d => x * b + d) a = a * b ^ L.length + Nat.ofDigits b L.reverse := by
  intro L
  induction L with
  | nil => intro a; simp [Nat.ofDigits_nil]
  | cons d t ih =>
      intro a
      rw [List.foldl_cons, ih, List.reverse_cons, Nat.ofDigits_append,
        List.length_reverse, List.length_cons]
      simp [Nat.ofDigits_singleton]
      ring

theorem parseVal_eq_ofDigits (b : Nat) (s : String) :
    parseVal b s = Nat.ofDigits b ((s.data.map hexDigitVal).reverse) := by
  have h1 : parseVal b s = (s.data.map hexDigitVal).foldl (fun a d => a * b + d) 0 := by
    rw [parseVal, List.foldl_map]
  rw [h1, foldl_mul_add]
  simp

theorem hexDigitVal_zero : hexDigitVal '0' = 0 := by decide

theorem parseVal_pyBaseStr (b n : Nat) (hb : 1 < b) (hb16 : b ≤ 16) :
    parseVal b (pyBaseStr b n) = n := by
  by_cases hn : n = 0
  · subst hn
    have h1 : pyBaseStr b 0 = "0" := by rw [pyBaseStr]; simp
    have h2 : parseVal b "0" = 0 * b + hexDigitVal '0' := rfl
    rw [h1, h2, hexDigitVal_zero]
    ring
  · rw [pyBaseStr, if_neg hn, parseVal_eq_ofDigits]
    have hdata : (String.mk (((digitsLE b n).reverse).map digitCharU)).data
        = ((digitsLE b n).reverse).map digitCharU := rfl
    rw [hdata, List.map_map, digitsLE_eq b n hb]
    have hpt : ∀ d ∈ (Nat.digits b n).reverse, (hexDigitVal ∘ digitCharU) d = id d := by
      intro d hd
      have hd' : d ∈ Nat.digits b n := List.mem_reverse.mp hd
      have : d < b := Nat.digits_lt_base hb hd'
      exact hexDigitVal_digitCharU d (lt_of_lt_of_le this hb16)
    rw [(List.map_congr_left hpt).trans (List.map_id _), List.reverse_reverse,
      Nat.ofDigits_digits]

theorem pyBaseStr_data_ne_nil (b n : Nat) (hb : 1 < b) : (pyBaseStr b n).data ≠ [] := by
  by_cases hn : n = 0
  · subst hn; simp [pyBaseStr]
  · rw [pyBaseStr, if_neg hn]
    have : Nat.digits b n ≠ [] := Nat.digits_ne_nil_iff_ne_zero.mpr hn
    simp [digitsLE_eq b n hb, this]

theorem pyBaseStr_chars (b n : Nat) (hb : 1 < b) :
    ∀ c ∈ (pyBaseStr b n).data, ∃ d, d < b ∧ c = digitCharU d := by
  intro c hc
  by_cases hn : n = 0
  · subst hn
    simp only [pyBaseStr, if_pos rfl] at hc
    have : c = '0' := by simpa using hc
    exact ⟨0, lt_trans one_pos hb, by rw [this]; rfl⟩
  · rw [pyBaseStr, if_neg hn] at hc
    have hc' : c ∈ ((digitsLE b n).reverse).map digitCharU := hc
    rcases List.mem_map.mp hc' with ⟨d, hd, rfl⟩
    have hd' : d ∈ Nat.digits b n := by
      rw [digitsLE_eq b n hb] at hd
      exact List.mem_reverse.mp hd
    exact ⟨d, Nat.digits_lt_base hb hd', rfl⟩

theorem pyBaseStr_valid (b n : Nat) (hb : 1 < b) (hb16 : b ≤ 16) :
    ∀ c ∈ (pyBaseStr b n).data, hexDigitVal c < b := by
  intro c hc
  rcases pyBaseStr_chars b n hb c hc with ⟨d, hd, rfl⟩
  rw [hexDigitVal_digitCharU d (lt_of_lt_of_le hd hb16)]
  exact hd

theorem parseBase_pyBaseStr (b n : Nat) (hb : 1 < b) (hb16 : b ≤ 16) :
    parseBase b (pyBaseStr b n) = some n := by
  rw [parseBase]
  rw [if_neg (by simp [List.isEmpty_iff, pyBaseStr_data_ne_nil b n hb])]
  rw [if_pos (by
    rw [List.all_eq_true]
    intro c hc
    exact decide_eq_true (pyBaseStr_valid b n hb hb16 c hc))]
  rw [parseVal_pyBaseStr b n hb hb16]

theorem pyBaseStr_length (b n : Nat) (hb : 1 < b) (hn : n ≠ 0) :
    (pyBaseStr b n).length = Nat.log b n + 1 := by
  rw [pyBaseStr, if_neg hn]
  have : (String.mk (((digitsLE b n).reverse).map digitCharU)).length
      = (((digitsLE b n).reverse).map digitCharU).length := rfl
  rw [this, List.length_map, List.length_reverse, digitsLE_eq b n hb,
    Nat.digits_len b n hb hn]

theorem pyBaseStr_length_le (b n k : Nat) (hb : 1 < b) (hk : 1 ≤ k) (hn : n < b ^ k) :
    (pyBaseStr b n).length ≤ k := by
  by_cases h0 : n = 0
  · subst h0; simpa [pyBaseStr] using hk
  · rw [pyBaseStr_length b n hb h0]
    have : Nat.log b n < k := Nat.log_lt_of_lt_pow h0 hn
    omega

theorem pyBaseStr_length_eq (b n k : Nat) (hb : 1 < b) (hlow : b ^ k ≤ n)
    (hhigh : n < b ^ (k + 1)) : (pyBaseStr b n).length = k + 1 := by
  have hn : n ≠ 0 := by
    have : 0 < b ^ k := Nat.pos_pow_of_pos k (lt_trans one_pos hb)
    omega
  rw [pyBaseStr_length b n hb hn, Nat.log_eq_of_pow_le_of_lt_pow hlow hhigh]

theorem parseVal_lt (b k : Nat) (s : String) (hb : 1 < b)
    (hvalid : ∀ c ∈ s.data, hexDigitVal c < b) (hlen : s.data.length ≤ k) :
    parseVal b s < b ^ k := by
  rw [parseVal_eq_ofDigits]
  have h1 : Nat.ofDigits b ((s.data.map hexDigitVal).reverse)
      < b ^ ((s.data.map hexDigitVal).reverse).length := by
    apply Nat.ofDigits_lt_base_pow_length hb
    intro x hx
    rcases List.mem_map.mp (List.mem_reverse.mp hx) with ⟨c, hc, rfl⟩
    exact hvalid c hc
  have h2 : ((s.data.map hexDigitVal).reverse).length ≤ k := by
    simpa using hlen
  exact lt_of_lt_of_le h1 (Nat.pow_le_pow_right (lt_trans one_pos hb) h2)

theorem pyBaseStr_parseVal (b : Nat) (s : String) (hb : 1 < b)
    (hne : s.data ≠ [])
    (hchar : ∀ c ∈ s.data, digitCharU (hexDigitVal c) = c ∧ hexDigitVal c < b)
    (hlead : ∀ h : s.data ≠ [], s = "0" ∨ hexDigitVal (s.data.head h) ≠ 0) :
    pyBaseStr b (parseVal b s) = s := by
  by_cases h0 : s = "0"
  · subst h0
    have h2 : parseVal b "0" = 0 * b + hexDigitVal '0' := rfl
    rw [h2, hexDigitVal_zero]
    have h3 : 0 * b + 0 = 0 := by ring
    rw [h3, pyBaseStr]
    simp
  · rw [parseVal_eq_ofDigits]
    set L := (s.data.map hexDigitVal).reverse with hL
    have hLne : L ≠ [] := by
      rw [hL]
      simpa using hne
    have hdig : Nat.digits b (Nat.ofDigits b L) = L := by
      apply Nat.digits_ofDigits b hb
      · intro l hl
        rcases List.mem_map.mp (List.mem_reverse.mp hl) with ⟨c, hc, rfl⟩
        exact (hchar c hc).2
      · intro hLne'
        have h1 : L.getLast? = some (L.getLast hLne') := List.getLast?_eq_getLast _ _
        have h2 : L.getLast? = some (hexDigitVal (s.data.head hne)) := by
          rw [hL, List.getLast?_reverse, List.head?_map, List.head?_eq_head hne]
          rfl
        have h3 : L.getLast hLne' = hexDigitVal (s.data.head hne) :=
          Option.some.inj (h1.symm.trans h2)
        rw [h3]
        exact (hlead hne).resolve_left h0
    have hofne : Nat.ofDigits b L ≠ 0 := by
      intro hzero
      rw [hzero, Nat.digits_zero] at hdig
      exact hLne hdig.symm
    rw [pyBaseStr, if_neg hofne, digitsLE_eq b _ hb, hdig, hL, List.reverse_reverse,
      List.map_map]
    have hpt : ∀ c ∈ s.data, (digitCharU ∘ hexDigitVal) c = id c :=
      fun c hc => (hchar c hc).1
    rw [(List.map_congr_left hpt).trans (List.map_id _)]

/-! ### Decode, zfill and plumbing lemmas -/

theorem twosDecode_eq (w v : Nat) (hw : 1 ≤ w) (hv : v < 2 ^ w) :
    twosDecode w v = if v < 2 ^ (w - 1) then (v : Int) else (v : Int) - 2 ^ w := by
  have hmask : (1 <<< (w - 1) : Nat) = 2 ^ (w - 1) := Nat.one_shiftLeft _
  have hsplit : (2 : Nat) ^ w = 2 ^ (w - 1) * 2 := by
    rw [← pow_succ]
    congr 1
    omega
  have htb : v &&& 2 ^ (w - 1) = (v.testBit (w - 1)).toNat * 2 ^ (w - 1) :=
    Nat.and_two_pow v (w - 1)
  by_cases hlt : v < 2 ^ (w - 1)
  · have hfalse : v.testBit (w - 1) = false := Nat.testBit_lt_two_pow hlt
    rw [if_pos hlt, twosDecode, hmask, htb, hfalse]
    simp
  · have hle : 2 ^ (w - 1) ≤ v := le_of_not_lt hlt
    have hpos : 0 < 2 ^ (w - 1) := Nat.pos_pow_of_pos _ two_pos
    have hd2 : v / 2 ^ (w - 1) < 2 := by
      rw [Nat.div_lt_iff_lt_mul hpos]
      omega
    have hd1 : 1 ≤ v / 2 ^ (w - 1) := (Nat.one_le_div_iff hpos).mpr hle
    have h1 : v / 2 ^ (w - 1) = 1 := by omega
    have htrue : v.testBit (w - 1) = true := by
      rw [Nat.testBit_to_div_mod, h1]
      decide
    rw [if_neg hlt, twosDecode, hmask, htb, htrue]
    simp only [Bool.toNat_true, one_mul]
    rw [Nat.cast_sub hle]
    have hcast : ((2 : Int) ^ w) = ((2 : Int) ^ (w - 1)) * 2 := by
      rw [← pow_succ]
      congr 1
      omega
    push_cast
    linarith

theorem pyZfill_of_le (s : String) (w : Nat) (h : w ≤ s.length) : pyZfill s w = s := by
  rw [pyZfill, if_pos h]

theorem pyZfill_length (s : String) (w : Nat) : (pyZfill s w).length = max s.length w := by
  rw [pyZfill]
  split_ifs with h
  · rw [Nat.max_eq_left h]
  · have h1 : (String.mk (List.replicate (w - s.length) '0' ++ s.data)).length
        = (List.replicate (w - s.length) '0' ++ s.data).length := rfl
    have h2 : s.data.length = s.length := rfl
    rw [h1, List.length_append, List.length_replicate, h2]
    omega

theorem pyZfill_chars (s : String) (w : Nat) :
    ∀ c ∈ (pyZfill s w).data, c = '0' ∨ c ∈ s.data := by
  intro c hc
  rw [pyZfill] at hc
  split_ifs at hc with h
  · exact Or.inr hc
  · have h1 : c ∈ List.replicate (w - s.length) '0' ++ s.data := hc
    rcases List.mem_append.mp h1 with h2 | h2
    · exact Or.inl (List.eq_of_mem_replicate h2)
    · exact Or.inr h2

theorem coercePlaces_unused : coercePlaces .unused = .ok none := rfl

theorem coercePlaces_blank : coercePlaces (.supplied .Blank) = .error (.xl .Num) := by decide

theorem coercePlaces_boolean (b : Bool) :
    coercePlaces (.supplied (.Boolean b)) = .error (.xl .Value) := rfl

theorem coercePlaces_nonbool (v : XlValue) (hnb : isBooleanV v = false) :
    coercePlaces (.supplied v)
      = match pyInt v with
        | .error e => .error e
        | .ok p => if ¬ (1 ≤ p ∧ p ≤ 10) then .error (.xl .Num) else .ok (some p) := by
  cases v with
  | Boolean b => simp [isBooleanV] at hnb
  | Blank => rfl
  | Number t i => rfl
  | Text s => rfl

theorem pyInt_text (s : String) :
    pyInt (.Text s)
      = match parseIntLike s with
        | some z => .ok z
        | none => .error (.xl .Value) := rfl

theorem coercePlaces_nonbool_ok {v : XlValue} {k : Int} (hnb : isBooleanV v = false)
    (hp : pyInt v = .ok k) :
    coercePlaces (.supplied v)
      = if ¬ (1 ≤ k ∧ k ≤ 10) then .error (.xl .Num) else .ok (some k) := by
  rw [coercePlaces_nonbool v hnb, hp]

theorem coercePlaces_nonbool_err {v : XlValue} {e : PyErr} (hnb : isBooleanV v = false)
    (hp : pyInt v = .error e) : coercePlaces (.supplied v) = .error e := by
  rw [coercePlaces_nonbool v hnb, hp]

theorem coercePlaces_oor {v : XlValue} {k : Int} (hnb : isBooleanV v = false)
    (hp : pyInt v = .ok k) (hk : ¬ (1 ≤ k ∧ k ≤ 10)) :
    coercePlaces (.supplied v) = .error (.xl .Num) := by
  rw [coercePlaces_nonbool_ok hnb hp, if_pos hk]

theorem coercePlaces_inrange {v : XlValue} {k : Int} (hnb : isBooleanV v = false)
    (hp : pyInt v = .ok k) (hk : 1 ≤ k ∧ k ≤ 10) :
    coercePlaces (.supplied v) = .ok (some k) := by
  rw [coercePlaces_nonbool_ok hnb hp, if_neg (not_not.mpr hk)]

theorem coercePlaces_ok_range {a : XlArg} {k : Int} (h : coercePlaces a = .ok (some k)) :
    1 ≤ k ∧ k ≤ 10 := by
  cases a with
  | unused => simp [coercePlaces] at h
  | supplied v =>
      cases v with
      | Boolean b => simp [coercePlaces] at h
      | Blank =>
          rw [coercePlaces_nonbool_ok (v := XlValue.Blank) rfl rfl] at h
          norm_num at h
          cases h
      | Number t i =>
          rw [coercePlaces_nonbool_ok (v := XlValue.Number t i) rfl rfl] at h
          split_ifs at h with hr
          cases h
          exact hr
      | Text s =>
          cases hp : parseIntLike s with
          | none =>
              have hpe : pyInt (XlValue.Text s) = .error (.xl .Value) := by
                rw [pyInt_text, hp]
              rw [coercePlaces_nonbool_err (v := XlValue.Text s) rfl hpe] at h
              cases h
          | some z =>
              have hpo : pyInt (XlValue.Text s) = .ok z := by
                rw [pyInt_text, hp]
              rw [coercePlaces_nonbool_ok (v := XlValue.Text s) rfl hpo] at h
              split_ifs at h with hr
              cases h
              exact hr

theorem applyConv_places_error {c : BaseConv} {v : XlValue} {p : XlArg} {e : PyErr}
    (h : coercePlaces p = .error e) : applyConv c v p = .error e := by
  rw [applyConv, h]

theorem applyConv_core_error {c : BaseConv} {v : XlValue} {p : XlArg} {pl : Option Int}
    {e : PyErr} (hp : coercePlaces p = .ok pl) (hc : c.core v = .error e) :
    applyConv c v p = .error e := by
  rw [applyConv, hp, hc]

theorem applyConv_ok {c : BaseConv} {v : XlValue} {p : XlArg} {pl : Option Int} {n : Int}
    (hp : coercePlaces p = .ok pl) (hc : c.core v = .ok n) :
    applyConv c v p = encodeTail c.tbase c.twidth n pl c.fillP := by
  rw [applyConv, hp, hc]

theorem applyConv_number_congr {c : BaseConv} {v w : XlValue} (p : XlArg)
    (h : c.core v = c.core w) : applyConv c v p = applyConv c w p := by
  rw [applyConv, applyConv, h]

theorem baseCore_ok_bounds {r w : Nat} {lo hi : Int} {v : XlValue} {n : Int}
    (h : baseCore r w lo hi v = .ok n) : lo ≤ n ∧ n < hi := by
  rw [baseCore] at h
  split at h
  next => cases h
  next as_str heq =>
    split_ifs at h with h1
    split at h
    next => cases h
    next value heq2 =>
      dsimp only at h
      split_ifs at h with h2
      cases h
      exact h2

theorem DEC2BIN_core_ok_bounds {v : XlValue} {n : Int}
    (h : DEC2BIN_core v = .ok n) : -512 ≤ n ∧ n < 512 := by
  rw [DEC2BIN_core] at h
  split_ifs at h with h1
  split at h
  next => cases h
  next m heq =>
    split_ifs at h with h2
    cases h
    omega

theorem DEC2OCT_core_ok_bounds {v : XlValue} {n : Int}
    (h : DEC2OCT_core v = .ok n) : -(2 ^ 29) ≤ n ∧ n < 2 ^ 29 := by
  rw [DEC2OCT_core] at h
  split_ifs at h with h1
  split at h
  next => cases h
  next m heq =>
    split_ifs at h with h2
    cases h
    exact h2

theorem DEC2HEX_core_ok_bounds {v : XlValue} {n : Int}
    (h : DEC2HEX_core v = .ok n) : -(2 ^ 39) ≤ n ∧ n < 2 ^ 39 := by
  rw [DEC2HEX_core] at h
  split_ifs at h with h1
  split at h
  next => cases h
  next m heq =>
    split_ifs at h with h2
    cases h
    exact h2

/-! ### Evaluation lemmas for the cores and the encode epilogue -/

theorem parseBase_of_valid (r : Nat) (s : String) (hne : s.data ≠ [])
    (hvalid : ∀ c ∈ s.data, hexDigitVal c < r) :
    parseBase r s = some (parseVal r s) := by
  rw [parseBase, if_neg (by simpa [List.isEmpty_iff] using hne),
    if_pos (by rw [List.all_eq_true]; exact fun c hc => decide_eq_true (hvalid c hc))]

theorem baseCore_text (r w : Nat) (lo hi : Int) (s : String) (hne : s.data ≠ [])
    (hvalid : ∀ c ∈ s.data, hexDigitVal c < r) :
    baseCore r w lo hi (.Text s)
      = if ¬ (lo ≤ twosDecode w (parseVal r s) ∧ twosDecode w (parseVal r s) < hi)
        then .error (.xl .Num) else .ok (twosDecode w (parseVal r s)) := by
  have h1 : baseCore r w lo hi (.Text s)
      = (if ¬ (s.data.all fun c => hexDigitVal c < r) then .error (.xl .Num)
         else
           match parseBase r s with
           | none => .error .hostError
           | some value =>
               if ¬ (lo ≤ twosDecode w value ∧ twosDecode w value < hi)
               then .error (.xl .Num) else .ok (twosDecode w value)) := rfl
  rw [h1, if_neg (by
    rw [not_not, List.all_eq_true]
    exact fun c hc => decide_eq_true (hvalid c hc)),
    parseBase_of_valid r s hne hvalid]

theorem DEC2BIN_core_number (t : Int) :
    DEC2BIN_core (.Number t true)
      = if ¬ (-513 < t ∧ t < 512) then .error (.xl .Num) else .ok t := rfl

theorem DEC2HEX_core_number (t : Int) :
    DEC2HEX_core (.Number t true)
      = if ¬ (-(2 ^ 39) ≤ t ∧ t < 2 ^ 39) then .error (.xl .Num) else .ok t := rfl

theorem rawEncode_nonneg {b w : Nat} {n : Int} (h : 0 ≤ n) :
    rawEncode b w n = pyBaseStr b n.toNat := by
  rw [rawEncode, if_neg (not_lt.mpr h)]

theorem rawEncode_neg {b w : Nat} {n : Int} (h : n < 0) :
    rawEncode b w n = pyBaseStr b (n + ((1 <<< w : Nat) : Int)).toNat := by
  rw [rawEncode, if_pos h]

theorem encodeTail_none (b w : Nat) (n : Int) (f : Bool) :
    encodeTail b w n none f = .ok (rawEncode b w n) := rfl

theorem encodeTail_some_expand (b w : Nat) (n : Int) (p : Int) (f : Bool) :
    encodeTail b w n (some p) f
      = (if (if n < 0 then ((rawEncode b w n).length : Int) else p)
            < ((rawEncode b w n).length : Int)
         then .error (.xl .Num)
         else .ok (pyZfill (rawEncode b w n)
            (if f then p.toNat
             else (if n < 0 then ((rawEncode b w n).length : Int) else p).toNat))) := rfl

theorem encodeTail_some_neg {b w : Nat} {n : Int} (p : Int) (f : Bool) (hneg : n < 0) :
    encodeTail b w n (some p) f
      = .ok (pyZfill (rawEncode b w n) (if f then p.toNat else (rawEncode b w n).length)) := by
  rw [encodeTail_some_expand, if_pos hneg, if_neg (lt_irrefl _), Int.toNat_natCast]

theorem encodeTail_some_nonneg {b w : Nat} {n : Int} (p : Int) (f : Bool) (hnn : 0 ≤ n) :
    encodeTail b w n (some p) f
      = (if p < ((rawEncode b w n).length : Int) then .error (.xl .Num)
         else .ok (pyZfill (rawEncode b w n) p.toNat)) := by
  rw [encodeTail_some_expand, if_neg (not_lt.mpr hnn), ite_self]

theorem rawEncode_length_le (b w : Nat) (n : Int) (hb : 1 < b)
    (hpow : ((1 <<< w : Nat) : Int) = (b : Int) ^ 10) (hn : n < (b : Int) ^ 10) :
    (rawEncode b w n).length ≤ 10 := by
  have hcast : (((b ^ 10 : Nat) : Int)) = (b : Int) ^ 10 := by push_cast; ring
  have hn' : n < ((b ^ 10 : Nat) : Int) := by rw [hcast]; exact hn
  have hpos10 : 0 < b ^ 10 := Nat.pos_pow_of_pos _ (by omega)
  by_cases hneg : n < 0
  · rw [rawEncode_neg hneg]
    apply pyBaseStr_length_le b _ 10 hb (by norm_num)
    rw [hpow, ← hcast]
    omega
  · rw [rawEncode_nonneg (le_of_not_lt hneg)]
    apply pyBaseStr_length_le b _ 10 hb (by norm_num)
    omega

theorem rawEncode_length_ten (b w : Nat) (n : Int) (hb : 1 < b)
    (hpow : ((1 <<< w : Nat) : Int) = (b : Int) ^ 10)
    (hneg : n < 0) (hlow : (b : Int) ^ 9 ≤ n + (b : Int) ^ 10) :
    (rawEncode b w n).length = 10 := by
  have hcast : (((b ^ 10 : Nat) : Int)) = (b : Int) ^ 10 := by push_cast; ring
  have hcast9 : (((b ^ 9 : Nat) : Int)) = (b : Int) ^ 9 := by push_cast; ring
  have hlow' : ((b ^ 9 : Nat) : Int) ≤ n + ((b ^ 10 : Nat) : Int) := by
    rw [hcast, hcast9]
    exact hlow
  have hpos10 : 0 < b ^ 10 := Nat.pos_pow_of_pos _ (by omega)
  rw [rawEncode_neg hneg, hpow, ← hcast]
  have h1 : b ^ 9 ≤ (n + ((b ^ 10 : Nat) : Int)).toNat := by omega
  have h2 : (n + ((b ^ 10 : Nat) : Int)).toNat < b ^ (9 + 1) := by
    have hp : b ^ (9 + 1) = b ^ 10 := by norm_num
    omega
  exact pyBaseStr_length_eq b _ 9 hb h1 h2

theorem rawEncode_chars (b w : Nat) (n : Int) (hb : 1 < b) :
    ∀ c ∈ (rawEncode b w n).data, ∃ d, d < b ∧ c = digitCharU d := by
  rw [rawEncode]
  exact pyBaseStr_chars b _ hb

/-! ### Generic properties of the assembled string conversions -/

theorem conv_unused (c : BaseConv) (v : XlValue) (n : Int) (hc : c.core v = .ok n) :
    applyConv c v .unused = .ok (rawEncode c.tbase c.twidth n) := by
  rw [applyConv_ok coercePlaces_unused hc, encodeTail_none]

theorem conv_blank_places (c : BaseConv) (v : XlValue) :
    applyConv c v (.supplied .Blank) = .error (.xl .Num) :=
  applyConv_places_error coercePlaces_blank

theorem conv_boolean_places (c : BaseConv) (v : XlValue) (b : Bool) :
    applyConv c v (.supplied (.Boolean b)) = .error (.xl .Value) :=
  applyConv_places_error (coercePlaces_boolean b)

theorem conv_places_oor (c : BaseConv) (v pv : XlValue) (k : Int)
    (hnb : isBooleanV pv = false) (hp : pyInt pv = .ok k) (hk : ¬ (1 ≤ k ∧ k ≤ 10)) :
    applyConv c v (.supplied pv) = .error (.xl .Num) :=
  applyConv_places_error (coercePlaces_oor hnb hp hk)

theorem conv_ok_invariant (c : BaseConv) (lo hi : Int)
    (hbounds : ∀ v n, c.core v = .ok n → lo ≤ n ∧ n < hi)
    (hb : 1 < c.tbase)
    (hpow : ((1 <<< c.twidth : Nat) : Int) = (c.tbase : Int) ^ 10)
    (hhi : hi ≤ (c.tbase : Int) ^ 10) :
    ∀ v p s, applyConv c v p = .ok s →
      s.length ≤ 10 ∧ ∀ ch ∈ s.data, ch = '0' ∨ ∃ d, d < c.tbase ∧ ch = digitCharU d := by
  intro v p s h
  rw [applyConv] at h
  split at h
  next => cases h
  next pl hpl =>
    split at h
    next => cases h
    next n hn =>
      have hb' := hbounds v n hn
      have hrl : (rawEncode c.tbase c.twidth n).length ≤ 10 :=
        rawEncode_length_le _ _ _ hb hpow (lt_of_lt_of_le hb'.2 hhi)
      cases pl with
      | none =>
          rw [encodeTail_none] at h
          cases h
          exact ⟨hrl, fun ch hch => Or.inr (rawEncode_chars _ _ _ hb ch hch)⟩
      | some k =>
          have hk := coercePlaces_ok_range hpl
          by_cases hneg : n < 0
          · rw [encodeTail_some_neg k c.fillP hneg] at h
            cases h
            refine ⟨?_, ?_⟩
            · rw [pyZfill_length]
              have hfill : (if c.fillP then k.toNat
                  else (rawEncode c.tbase c.twidth n).length) ≤ 10 := by
                split_ifs
                · omega
                · exact hrl
              omega
            · intro ch hch
              rcases pyZfill_chars _ _ ch hch with h0 | hmem
              · exact Or.inl h0
              · exact Or.inr (rawEncode_chars _ _ _ hb ch hmem)
          · rw [encodeTail_some_nonneg k c.fillP (le_of_not_lt hneg)] at h
            split_ifs at h with hlt
            cases h
            refine ⟨?_, ?_⟩
            · rw [pyZfill_length]
              omega
            · intro ch hch
              rcases pyZfill_chars _ _ ch hch with h0 | hmem
              · exact Or.inl h0
              · exact Or.inr (rawEncode_chars _ _ _ hb ch hmem)

theorem conv_neg_ten (c : BaseConv) (lo hi : Int)
    (hbounds : ∀ v n, c.core v = .ok n → lo ≤ n ∧ n < hi)
    (hb : 1 < c.tbase)
    (hpow : ((1 <<< c.twidth : Nat) : Int) = (c.tbase : Int) ^ 10)
    (hlo9 : (c.tbase : Int) ^ 9 - (c.tbase : Int) ^ 10 ≤ lo) :
    ∀ v (pv : XlValue) (n k : Int), c.core v = .ok n → n < 0 →
      coercePlaces (.supplied pv) = .ok (some k) →
      ∃ s, applyConv c v (.supplied pv) = .ok s ∧ s.length = 10 := by
  intro v pv n k hc hneg hpl
  have hb' := hbounds v n hc
  have hlen : (rawEncode c.tbase c.twidth n).length = 10 :=
    rawEncode_length_ten _ _ _ hb hpow hneg (by linarith [hb'.1])
  have hk := coercePlaces_ok_range hpl
  refine ⟨_, by rw [applyConv_ok hpl hc, encodeTail_some_neg k c.fillP hneg], ?_⟩
  rw [pyZfill_length, hlen]
  have hfill : (if c.fillP then k.toNat else 10) ≤ 10 := by
    split_ifs
    · omega
    · exact le_refl 10
  omega

theorem conv_nonneg_places (c : BaseConv) :
    ∀ v (pv : XlValue) (n k : Int), c.core v = .ok n → 0 ≤ n →
      coercePlaces (.supplied pv) = .ok (some k) →
      (((rawEncode c.tbase c.twidth n).length : Int) ≤ k →
          applyConv c v (.supplied pv) = .ok (pyZfill (rawEncode c.tbase c.twidth n) k.toNat)
            ∧ (pyZfill (rawEncode c.tbase c.twidth n) k.toNat).length = k.toNat)
      ∧ (k < ((rawEncode c.tbase c.twidth n).length : Int) →
          applyConv c v (.supplied pv) = .error (.xl .Num)) := by
  intro v pv n k hc hnn hpl
  have hk := coercePlaces_ok_range hpl
  constructor
  · intro hle
    constructor
    · rw [applyConv_ok hpl hc, encodeTail_some_nonneg k c.fillP hnn, if_neg (not_lt.mpr hle)]
    · rw [pyZfill_length]
      omega
  · intro hlt
    rw [applyConv_ok hpl hc, encodeTail_some_nonneg k c.fillP hnn, if_pos hlt]

/-! ### Full-evaluation lemma for HEX2DEC on nonempty text -/

theorem HEX2DEC_text (s : String) (hne : s.data ≠ [])
    (hvalid : ∀ c ∈ s.data, hexDigitVal c < 16) :
    HEX2DEC (.Text s)
      = if ¬ (0 ≤ (parseVal 16 s : Int) ∧ (parseVal 16 s : Int) < 2 ^ 40)
        then .error (.xl .Num) else .ok (twosDecode 40 (parseVal 16 s)) := by
  have hfal : isFalsyV (.Text s) = false := by
    simp [isFalsyV, List.isEmpty_iff, hne]
  have h1 : HEX2DEC (.Text s)
      = (match (if isFalsyV (.Text s) then Except.ok "0" else Except.ok s :
            Except PyErr String) with
         | .error e => .error e
         | .ok as_str =>
             if ¬ (as_str.data.all fun c => hexDigitVal c < 16) then .error (.xl .Num)
             else
               match parseBase 16 as_str with
               | none => .error .hostError
               | some value =>
                   if ¬ (0 ≤ (value : Int) ∧ (value : Int) < 2 ^ 40) then .error (.xl .Num)
                   else .ok (twosDecode 40 value)) := rfl
  have h2 : (if isFalsyV (.Text s) then Except.ok "0" else (Except.ok s : Except PyErr String))
      = Except.ok s := by
    rw [hfal]
    simp
  have h3 : (if ¬ (s.data.all fun c => hexDigitVal c < 16)
        then (Except.error (PyErr.xl XlError.Num) : Except PyErr Int)
        else
          match parseBase 16 s with
          | none => .error .hostError
          | some value =>
              if ¬ (0 ≤ (value : Int) ∧ (value : Int) < 2 ^ 40) then .error (.xl .Num)
              else .ok (twosDecode 40 value))
      = if ¬ (0 ≤ (parseVal 16 s : Int) ∧ (parseVal 16 s : Int) < 2 ^ 40)
        then .error (.xl .Num) else .ok (twosDecode 40 (parseVal 16 s)) := by
    rw [if_neg (by
      rw [not_not, List.all_eq_true]
      exact fun c hc => decide_eq_true (hvalid c hc)),
      parseBase_of_valid 16 s hne hvalid]
  rw [h1, h2]
  exact h3

/-! ### Round-trip lemmas -/

theorem hex2dec_rawEncode (d : Int) (h1 : -(2 ^ 39) ≤ d) (h2 : d < 2 ^ 39) :
    HEX2DEC (.Text (rawEncode 16 40 d)) = .ok d := by
  have hs40 : ((1 <<< 40 : Nat) : Int) = 2 ^ 40 := by norm_num [Nat.one_shiftLeft]
  set M : Nat := (if d < 0 then d + ((1 <<< 40 : Nat) : Int) else d).toNat with hM
  have hraw : rawEncode 16 40 d = pyBaseStr 16 M := rfl
  have hMi : (M : Int) = if d < 0 then d + 2 ^ 40 else d := by
    rw [hM]
    split_ifs with h
    · rw [hs40]
      exact Int.toNat_of_nonneg (by omega)
    · exact Int.toNat_of_nonneg (by omega)
  have hM40 : M < 2 ^ 40 := by
    by_cases h : d < 0
    · rw [if_pos h] at hMi
      omega
    · rw [if_neg h] at hMi
      omega
  have hne := pyBaseStr_data_ne_nil 16 M (by norm_num)
  have hvalid := pyBaseStr_valid 16 M (by norm_num) (by norm_num)
  rw [hraw, HEX2DEC_text _ hne hvalid, parseVal_pyBaseStr 16 M (by norm_num) (by norm_num)]
  rw [if_neg (not_not.mpr ⟨Int.natCast_nonneg M, by omega⟩)]
  rw [twosDecode_eq 40 M (by norm_num) hM40]
  have h391 : (2 : Nat) ^ (40 - 1) = 2 ^ 39 := by norm_num
  by_cases hneg : d < 0
  · rw [if_pos hneg] at hMi
    rw [if_neg (by rw [h391]; omega)]
    exact congrArg Except.ok (by omega)
  · rw [if_neg hneg] at hMi
    rw [if_pos (by rw [h391]; omega)]
    exact congrArg Except.ok (by omega)

theorem binary_core_eval (s : String) (hne : s.data ≠ [])
    (hv : ∀ c ∈ s.data, hexDigitVal c < 2) (hlen : s.data.length ≤ 10) :
    baseCore 2 10 (-(2 ^ 9)) (2 ^ 9) (.Text s) = .ok (twosDecode 10 (parseVal 2 s))
      ∧ -512 ≤ twosDecode 10 (parseVal 2 s) ∧ twosDecode 10 (parseVal 2 s) < 512
      ∧ twosDecode 10 (parseVal 2 s)
          = (if parseVal 2 s < 2 ^ 9 then (parseVal 2 s : Int)
             else (parseVal 2 s : Int) - 2 ^ 10)
      ∧ parseVal 2 s < 2 ^ 10 := by
  have hv10 : parseVal 2 s < 2 ^ 10 := parseVal_lt 2 10 s (by norm_num) hv hlen
  have hdec := twosDecode_eq 10 (parseVal 2 s) (by norm_num) hv10
  have h91 : (2 : Nat) ^ (10 - 1) = 2 ^ 9 := by norm_num
  rw [h91] at hdec
  have hbounds : -512 ≤ twosDecode 10 (parseVal 2 s) ∧ twosDecode 10 (parseVal 2 s) < 512 := by
    rw [hdec]
    split_ifs with h
    · constructor <;> omega
    · constructor <;> omega
  refine ⟨?_, hbounds.1, hbounds.2, hdec, hv10⟩
  rw [baseCore_text 2 10 _ _ s hne hv,
    if_neg (not_not.mpr ⟨by omega, by omega⟩)]

theorem bin_roundtrip_generic (tb tw : Nat) (lo2 hi2 : Int)
    (hb : 1 < tb) (hb16 : tb ≤ 16)
    (hshift : (1 <<< tw : Nat) = 2 ^ tw) (htw1 : 1 ≤ tw)
    (hbig : (2 : Nat) ^ 10 ≤ 2 ^ tw) (htww : (2 : Nat) ^ tw = 2 * 2 ^ (tw - 1))
    (hlo2 : lo2 ≤ -512) (hhi2 : 512 ≤ hi2)
    (s : String) (hne : s.data ≠ [])
    (hv : ∀ c ∈ s.data, hexDigitVal c < 2) (hlen : s.data.length ≤ 10)
    (hrender : pyBaseStr 2 (parseVal 2 s) = s) :
    applyConv ⟨baseCore tb tw lo2 hi2, 2, 10, true⟩
        (.Text (rawEncode tb tw (twosDecode 10 (parseVal 2 s)))) .unused = .ok s := by
  obtain ⟨hcore1, hlo, hhi, hdec, hv10⟩ := binary_core_eval s hne hv hlen
  set v := parseVal 2 s with hvdef
  set nv := twosDecode 10 v with hnvdef
  set M : Nat := (if nv < 0 then nv + ((1 <<< tw : Nat) : Int) else nv).toNat with hM
  have hraw : rawEncode tb tw nv = pyBaseStr tb M := rfl
  have hcastw : ((1 <<< tw : Nat) : Int) = ((2 ^ tw : Nat) : Int) := by rw [hshift]
  have hs10 : ((1 <<< 10 : Nat) : Int) = 1024 := by norm_num [Nat.one_shiftLeft]
  have hcore2base := baseCore_text tb tw lo2 hi2 (pyBaseStr tb M)
    (pyBaseStr_data_ne_nil tb M hb) (pyBaseStr_valid tb M hb hb16)
  rw [parseVal_pyBaseStr tb M hb hb16] at hcore2base
  rw [hraw]
  by_cases hneg : nv < 0
  · have hveq : nv = (v : Int) - 2 ^ 10 := by
      have hq : ¬ (v < 2 ^ 9) := by
        intro hvs
        rw [hdec, if_pos hvs] at hneg
        omega
      rw [hdec, if_neg hq]
    have hMi : (M : Int) = nv + ((2 ^ tw : Nat) : Int) := by
      rw [hM, hcastw, if_pos hneg]
      exact Int.toNat_of_nonneg (by omega)
    have hMge : 2 ^ (tw - 1) ≤ M := by omega
    have hMlt : M < 2 ^ tw := by omega
    have hdec2 := twosDecode_eq tw M htw1 hMlt
    rw [if_neg (not_lt.mpr hMge)] at hdec2
    have hc2 : ((2 ^ tw : Nat) : Int) = (2 : Int) ^ tw := by push_cast; ring
    have hnv2 : twosDecode tw M = nv := by
      rw [hdec2]
      omega
    rw [hnv2] at hcore2base
    have hcore2 : baseCore tb tw lo2 hi2 (.Text (pyBaseStr tb M)) = .ok nv := by
      rw [hcore2base, if_neg (not_not.mpr ⟨by omega, by omega⟩)]
    rw [conv_unused ⟨baseCore tb tw lo2 hi2, 2, 10, true⟩ _ nv hcore2]
    have hback : (nv + ((1 <<< 10 : Nat) : Int)).toNat = v := by omega
    rw [rawEncode_neg hneg, hback, hrender]
  · have hnn : 0 ≤ nv := le_of_not_lt hneg
    have hveq : nv = (v : Int) := by
      have hvlt : v < 2 ^ 9 := by
        by_contra hq
        rw [hdec, if_neg hq] at hneg
        omega
      rw [hdec, if_pos hvlt]
    have hMi : (M : Int) = nv := by
      rw [hM, if_neg hneg]
      exact Int.toNat_of_nonneg hnn
    have hMlt9 : M < 2 ^ (tw - 1) := by omega
    have hMlt : M < 2 ^ tw := by omega
    have hdec2 := twosDecode_eq tw M htw1 hMlt
    rw [if_pos hMlt9] at hdec2
    have hnv2 : twosDecode tw M = nv := by
      rw [hdec2]
      omega
    rw [hnv2] at hcore2base
    have hcore2 : baseCore tb tw lo2 hi2 (.Text (pyBaseStr tb M)) = .ok nv := by
      rw [hcore2base, if_neg (not_not.mpr ⟨by omega, by omega⟩)]
    rw [conv_unused ⟨baseCore tb tw lo2 hi2, 2, 10, true⟩ _ nv hcore2]
    have hback : nv.toNat = v := by omega
    rw [rawEncode_nonneg hnn, hback, hrender]

theorem binary_input_facts (s : String) (hne : s.data ≠ [])
    (hbits : ∀ c ∈ s.data, c = '0' ∨ c = '1')
    (hlead : s = "0" ∨ s.data.head? ≠ some '0') :
    (∀ c ∈ s.data, hexDigitVal c < 2) ∧ pyBaseStr 2 (parseVal 2 s) = s := by
  have hv : ∀ c ∈ s.data, hexDigitVal c < 2 := by
    intro c hc
    rcases hbits c hc with rfl | rfl <;> decide
  refine ⟨hv, ?_⟩
  apply pyBaseStr_parseVal 2 s (by norm_num) hne
  · intro c hc
    rcases hbits c hc with rfl | rfl <;> exact ⟨by decide, by decide⟩
  · intro h
    rcases hlead with h0 | hh
    · exact Or.inl h0
    · right
      have hmem : s.data.head h ∈ s.data := List.head_mem h
      rcases hbits _ hmem with he | he
      · exact absurd (by rw [List.head?_eq_head h, he]) hh
      · rw [he]
        decide

theorem rawEncode_bin_of_decode (s : String) (hv10 : parseVal 2 s < 2 ^ 10)
    (hdec : twosDecode 10 (parseVal 2 s)
      = (if parseVal 2 s < 2 ^ 9 then (parseVal 2 s : Int) else (parseVal 2 s : Int) - 2 ^ 10))
    (hrender : pyBaseStr 2 (parseVal 2 s) = s) :
    rawEncode 2 10 (twosDecode 10 (parseVal 2 s)) = s := by
  set v := parseVal 2 s with hvdef
  set nv := twosDecode 10 v with hnvdef
  have hs10 : ((1 <<< 10 : Nat) : Int) = 1024 := by norm_num [Nat.one_shiftLeft]
  by_cases hneg : nv < 0
  · have hveq : nv = (v : Int) - 2 ^ 10 := by
      have hq : ¬ (v < 2 ^ 9) := by
        intro hvs
        rw [hdec, if_pos hvs] at hneg
        omega
      rw [hdec, if_neg hq]
    have hback : (nv + ((1 <<< 10 : Nat) : Int)).toNat = v := by omega
    rw [rawEncode_neg hneg, hback, hrender]
  · have hveq : nv = (v : Int) := by
      have hvlt : v < 2 ^ 9 := by
        by_contra hq
        rw [hdec, if_neg hq] at hneg
        omega
      rw [hdec, if_pos hvlt]
    have hback : nv.toNat = v := by omega
    rw [rawEncode_nonneg (le_of_not_lt hneg), hback, hrender]

theorem conv_ok_alpha (c : BaseConv) (lo hi : Int) (alpha : String)
    (hbounds : ∀ v n, c.core v = .ok n → lo ≤ n ∧ n < hi)
    (hb : 1 < c.tbase)
    (hpow : ((1 <<< c.twidth : Nat) : Int) = (c.tbase : Int) ^ 10)
    (hhi : hi ≤ (c.tbase : Int) ^ 10)
    (hzero : '0' ∈ alpha.data)
    (hdig : ∀ d : Nat, d < c.tbase → digitCharU d ∈ alpha.data) :
    ∀ v p s, applyConv c v p = .ok s → s.length ≤ 10 ∧ ∀ ch ∈ s.data, ch ∈ alpha.data := by
  intro v p s hs
  obtain ⟨hl, hch⟩ := conv_ok_invariant c lo hi hbounds hb hpow hhi v p s hs
  refine ⟨hl, fun ch hmem => ?_⟩
  rcases hch ch hmem with rfl | ⟨d, hd, rfl⟩
  · exact hzero
  · exact hdig d hd

theorem shift10_pow2 : ((1 <<< 10 : Nat) : Int) = (2 : Int) ^ 10 := by decide

theorem shift30_pow8 : ((1 <<< 30 : Nat) : Int) = (8 : Int) ^ 10 := by decide

theorem shift40_pow16 : ((1 <<< 40 : Nat) : Int) = (16 : Int) ^ 10 := by decide

theorem digitCharU_mem_bin : ∀ d : Nat, d < 2 → digitCharU d ∈ "01".data := by decide

theorem digitCharU_mem_oct : ∀ d : Nat, d < 8 → digitCharU d ∈ "01234567".data := by decide

theorem digitCharU_mem_hex : ∀ d : Nat, d < 16 → digitCharU d ∈ "0123456789ABCDEF".data := by
  decide

/-! ### Claims -/

/-- C1: evidence against the claim and the test suite's expectation.
The octal input `14000000000` has unsigned parse `2^30 + 2^29`, outside
`[0, 2^30)`, so the claim (and the repository's own test case
`Case(number=14000000000, expected=NumExcelError)`) require a Num-kind
failure; but OCT2HEX's range check is `-2**30 <= new_value < 2**30`
rather than the source-width bound, the decode of this raw value is
`2^29`, and the call succeeds with "20000000". -/
theorem C1_oct2hex_accepts_out_of_width_input :
    OCT2HEX (.Number 14000000000 true) .unused = .ok "20000000"
      ∧ OCT2HEX (.Text "14000000000") .unused = .ok "20000000"
      ∧ parseVal 8 "14000000000" = 2 ^ 30 + 2 ^ 29 := by decide

/-- C2 counterexample: with a Boolean `number` and a non-Boolean `places`
of 11 (outside [1,10]), DEC2BIN fails with the Num-kind error from places
validation, not the Value-kind error from boolean rejection of `number`
that the claim asserts. -/
theorem C2_boolean_number_oor_places_counterexample :
    DEC2BIN (.Boolean true) (.supplied (.Number 11 true)) = .error (.xl .Num)
      ∧ ¬ DEC2BIN (.Boolean true) (.supplied (.Number 11 true)) = .error (.xl .Value) := by
  decide

/-- C2 (amended): `places` validation precedes the boolean rejection of
`number`: for every one of the nine places-taking functions, a call whose
`number` is a Boolean and whose `places` is a non-Boolean value coercing
to an integer outside [1,10] fails with the Num-kind error from places
validation. -/
theorem C2_places_validation_precedes_number_boolean :
    ∀ (b : Bool) (pv : XlValue) (k : Int),
      isBooleanV pv = false → pyInt pv = .ok k → ¬ (1 ≤ k ∧ k ≤ 10) →
      DEC2BIN (.Boolean b) (.supplied pv) = .error (.xl .Num)
        ∧ DEC2OCT (.Boolean b) (.supplied pv) = .error (.xl .Num)
        ∧ DEC2HEX (.Boolean b) (.supplied pv) = .error (.xl .Num)
        ∧ BIN2OCT (.Boolean b) (.supplied pv) = .error (.xl .Num)
        ∧ BIN2HEX (.Boolean b) (.supplied pv) = .error (.xl .Num)
        ∧ OCT2BIN (.Boolean b) (.supplied pv) = .error (.xl .Num)
        ∧ OCT2HEX (.Boolean b) (.supplied pv) = .error (.xl .Num)
        ∧ HEX2BIN (.Boolean b) (.supplied pv) = .error (.xl .Num)
        ∧ HEX2OCT (.Boolean b) (.supplied pv) = .error (.xl .Num) := by
  intro b pv k hnb hp hk
  have h := coercePlaces_oor hnb hp hk
  exact ⟨applyConv_places_error h, applyConv_places_error h, applyConv_places_error h,
    applyConv_places_error h, applyConv_places_error h, applyConv_places_error h,
    applyConv_places_error h, applyConv_places_error h, applyConv_places_error h⟩

/-- Witness for C2's amended theorem at number = TRUE, places = 11. -/
theorem C2_places_validation_precedes_number_boolean_witness :
    DEC2BIN (.Boolean true) (.supplied (.Number 11 true)) = .error (.xl .Num) :=
  (C2_places_validation_precedes_number_boolean true (.Number 11 true) 11 rfl rfl
    (by decide)).1

/-- C3: for every 10-bit two's-complement binary digit string (nonempty,
only 0/1 digits, length at most 10, no leading zero unless "0"), the
round trips OCT2BIN(BIN2OCT(b)) = b, HEX2BIN(BIN2HEX(b)) = b and
DEC2BIN(BIN2DEC(b)) = b hold with places unsupplied throughout. -/
theorem C3_bin_roundtrips (s : String) (hne : s.data ≠ [])
    (hbits : ∀ c ∈ s.data, c = '0' ∨ c = '1') (hlen : s.data.length ≤ 10)
    (hlead : s = "0" ∨ s.data.head? ≠ some '0') :
    (∃ t, BIN2OCT (.Text s) .unused = .ok t ∧ OCT2BIN (.Text t) .unused = .ok s)
      ∧ (∃ t, BIN2HEX (.Text s) .unused = .ok t ∧ HEX2BIN (.Text t) .unused = .ok s)
      ∧ (∃ n, BIN2DEC (.Text s) = .ok n ∧ DEC2BIN (.Number n true) .unused = .ok s) := by
  obtain ⟨hv, hrender⟩ := binary_input_facts s hne hbits hlead
  obtain ⟨hcore1, hlo, hhi, hdec, hv10⟩ := binary_core_eval s hne hv hlen
  refine ⟨⟨_, conv_unused ⟨baseCore 2 10 (-(2 ^ 9)) (2 ^ 9), 8, 30, true⟩ _ _ hcore1, ?_⟩,
    ⟨_, conv_unused ⟨baseCore 2 10 (-(2 ^ 9)) (2 ^ 9), 16, 40, true⟩ _ _ hcore1, ?_⟩,
    ⟨_, hcore1, ?_⟩⟩
  · exact bin_roundtrip_generic 8 30 (-512) 512 (by norm_num) (by norm_num)
      (by norm_num [Nat.one_shiftLeft]) (by norm_num) (by norm_num) (by norm_num)
      (by norm_num) (by norm_num) s hne hv hlen hrender
  · exact bin_roundtrip_generic 16 40 (-(2 ^ 9)) (2 ^ 9) (by norm_num) (by norm_num)
      (by norm_num [Nat.one_shiftLeft]) (by norm_num) (by norm_num) (by norm_num)
      (by norm_num) (by norm_num) s hne hv hlen hrender
  · have hcored : DEC2BIN_core (.Number (twosDecode 10 (parseVal 2 s)) true)
        = .ok (twosDecode 10 (parseVal 2 s)) := by
      rw [DEC2BIN_core_number, if_neg (not_not.mpr ⟨by omega, by omega⟩)]
    have h5 := conv_unused ⟨DEC2BIN_core, 2, 10, false⟩
      (.Number (twosDecode 10 (parseVal 2 s)) true) (twosDecode 10 (parseVal 2 s)) hcored
    exact h5.trans (congrArg Except.ok (rawEncode_bin_of_decode s hv10 hdec hrender))

/-- Witness for C3 at the binary string "1010". -/
theorem C3_bin_roundtrips_witness :
    (∃ t, BIN2OCT (.Text "1010") .unused = .ok t ∧ OCT2BIN (.Text t) .unused = .ok "1010")
      ∧ (∃ t, BIN2HEX (.Text "1010") .unused = .ok t ∧ HEX2BIN (.Text t) .unused = .ok "1010")
      ∧ (∃ n, BIN2DEC (.Text "1010") = .ok n
          ∧ DEC2BIN (.Number n true) .unused = .ok "1010") :=
  C3_bin_roundtrips "1010" (by decide) (by decide) (by decide) (by decide)

/-- C4: for every decimal integer d in [-2^39, 2^39 - 1],
HEX2DEC(DEC2HEX(d)) = d, with places unsupplied in the DEC2HEX call. -/
theorem C4_dec_hex_roundtrip (d : Int) (h1 : -(2 ^ 39) ≤ d) (h2 : d < 2 ^ 39) :
    ∃ s, DEC2HEX (.Number d true) .unused = .ok s ∧ HEX2DEC (.Text s) = .ok d := by
  have hcore : DEC2HEX_core (.Number d true) = .ok d := by
    rw [DEC2HEX_core_number, if_neg (not_not.mpr ⟨h1, h2⟩)]
  exact ⟨_, conv_unused ⟨DEC2HEX_core, 16, 40, true⟩ _ d hcore, hex2dec_rawEncode d h1 h2⟩

/-- Witness for C4 at d = -1. -/
theorem C4_dec_hex_roundtrip_witness :
    ∃ s, DEC2HEX (.Number (-1) true) .unused = .ok s ∧ HEX2DEC (.Text s) = .ok (-1) :=
  C4_dec_hex_roundtrip (-1) (by decide) (by decide)

/-- C5: DEC2BIN fails with the Num-kind error at -513 and 512, returns
"1000000000" at -512 and "111111111" at 511 (places unsupplied). -/
theorem C5_dec2bin_boundaries :
    DEC2BIN (.Number (-513) true) .unused = .error (.xl .Num)
      ∧ DEC2BIN (.Number 512 true) .unused = .error (.xl .Num)
      ∧ DEC2BIN (.Number (-512) true) .unused = .ok "1000000000"
      ∧ DEC2BIN (.Number 511 true) .unused = .ok "111111111" := by decide

/-- C6: for each of the nine string-returning conversions (the packages
map to exactly DEC2BIN .. HEX2OCT, first conjunct): (a) when the encoded
value is negative, any supplied places accepted by places-validation
yields a successful result of exactly 10 digits; (b) a supplied
non-Boolean places coercing outside [1,10] fails with the Num-kind error
even though the value would be ignored; (c) for a nonnegative encoded
value with places supplied, the result is left-zero-padded to exactly
`places` digits, and a natural digit count exceeding `places` fails with
the Num-kind error. -/
theorem C6_negative_full_width_and_padding :
    stringConvPkgs.map applyConv
        = [DEC2BIN, DEC2OCT, DEC2HEX, BIN2OCT, BIN2HEX, OCT2BIN, OCT2HEX, HEX2BIN, HEX2OCT]
      ∧ ∀ c ∈ stringConvPkgs,
        (∀ v (pv : XlValue) (n k : Int), c.core v = .ok n → n < 0 →
            coercePlaces (.supplied pv) = .ok (some k) →
            ∃ s, applyConv c v (.supplied pv) = .ok s ∧ s.length = 10)
          ∧ (∀ v (pv : XlValue) (k : Int), isBooleanV pv = false → pyInt pv = .ok k →
              ¬ (1 ≤ k ∧ k ≤ 10) → applyConv c v (.supplied pv) = .error (.xl .Num))
          ∧ (∀ v (pv : XlValue) (n k : Int), c.core v = .ok n → 0 ≤ n →
              coercePlaces (.supplied pv) = .ok (some k) →
              (((rawEncode c.tbase c.twidth n).length : Int) ≤ k →
                  applyConv c v (.supplied pv)
                      = .ok (pyZfill (rawEncode c.tbase c.twidth n) k.toNat)
                    ∧ (pyZfill (rawEncode c.tbase c.twidth n) k.toNat).length = k.toNat)
                ∧ (k < ((rawEncode c.tbase c.twidth n).length : Int) →
                    applyConv c v (.supplied pv) = .error (.xl .Num))) := by
  refine ⟨rfl, ?_⟩
  intro c hc
  simp only [stringConvPkgs, List.mem_cons, List.not_mem_nil, or_false] at hc
  rcases hc with rfl | rfl | rfl | rfl | rfl | rfl | rfl | rfl | rfl
  · exact ⟨conv_neg_ten _ (-512) 512 (fun _ _ h => DEC2BIN_core_ok_bounds h)
        (by norm_num) shift10_pow2 (by norm_num),
      fun v pv k hnb hp hk => conv_places_oor _ v pv k hnb hp hk,
      conv_nonneg_places _⟩
  · exact ⟨conv_neg_ten _ (-(2 ^ 29)) (2 ^ 29) (fun _ _ h => DEC2OCT_core_ok_bounds h)
        (by norm_num) shift30_pow8 (by norm_num),
      fun v pv k hnb hp hk => conv_places_oor _ v pv k hnb hp hk,
      conv_nonneg_places _⟩
  · exact ⟨conv_neg_ten _ (-(2 ^ 39)) (2 ^ 39) (fun _ _ h => DEC2HEX_core_ok_bounds h)
        (by norm_num) shift40_pow16 (by norm_num),
      fun v pv k hnb hp hk => conv_places_oor _ v pv k hnb hp hk,
      conv_nonneg_places _⟩
  · exact ⟨conv_neg_ten _ (-(2 ^ 9)) (2 ^ 9) (fun _ _ h => baseCore_ok_bounds h)
        (by norm_num) shift30_pow8 (by norm_num),
      fun v pv k hnb hp hk => conv_places_oor _ v pv k hnb hp hk,
      conv_nonneg_places _⟩
  · exact ⟨conv_neg_ten _ (-(2 ^ 9)) (2 ^ 9) (fun _ _ h => baseCore_ok_bounds h)
        (by norm_num) shift40_pow16 (by norm_num),
      fun v pv k hnb hp hk => conv_places_oor _ v pv k hnb hp hk,
      conv_nonneg_places _⟩
  · exact ⟨conv_neg_ten _ (-512) 512 (fun _ _ h => baseCore_ok_bounds h)
        (by norm_num) shift10_pow2 (by norm_num),
      fun v pv k hnb hp hk => conv_places_oor _ v pv k hnb hp hk,
      conv_nonneg_places _⟩
  · exact ⟨conv_neg_ten _ (-(2 ^ 30)) (2 ^ 30) (fun _ _ h => baseCore_ok_bounds h)
        (by norm_num) shift40_pow16 (by norm_num),
      fun v pv k hnb hp hk => conv_places_oor _ v pv k hnb hp hk,
      conv_nonneg_places _⟩
  · exact ⟨conv_neg_ten _ (-(2 ^ 9)) (2 ^ 9) (fun _ _ h => baseCore_ok_bounds h)
        (by norm_num) shift10_pow2 (by norm_num),
      fun v pv k hnb hp hk => conv_places_oor _ v pv k hnb hp hk,
      conv_nonneg_places _⟩
  · exact ⟨conv_neg_ten _ (-(2 ^ 29)) (2 ^ 29) (fun _ _ h => baseCore_ok_bounds h)
        (by norm_num) shift30_pow8 (by norm_num),
      fun v pv k hnb hp hk => conv_places_oor _ v pv k hnb hp hk,
      conv_nonneg_places _⟩

/-- Witness for C6: DEC2BIN at number = -1 (negative) with places = 2
succeeds with a 10-digit result. -/
theorem C6_negative_full_width_and_padding_witness :
    ∃ s, applyConv ⟨DEC2BIN_core, 2, 10, false⟩ (.Number (-1) true)
        (.supplied (.Number 2 true)) = .ok s ∧ s.length = 10 :=
  (C6_negative_full_width_and_padding.2 ⟨DEC2BIN_core, 2, 10, false⟩
      (List.mem_cons_self _ _)).1
    (.Number (-1) true) (.Number 2 true) (-1) 2 (by decide) (by decide) (by decide)

/-- C7: a Boolean `number` fails with the Value-kind error for all twelve
conversion functions (places Unused where the parameter exists), and a
Boolean `places` fails with the Value-kind error for all nine
places-taking functions regardless of the `number` argument. -/
theorem C7_boolean_rejection (v : XlValue) (b : Bool) :
    DEC2BIN (.Boolean b) .unused = .error (.xl .Value)
      ∧ DEC2OCT (.Boolean b) .unused = .error (.xl .Value)
      ∧ DEC2HEX (.Boolean b) .unused = .error (.xl .Value)
      ∧ BIN2OCT (.Boolean b) .unused = .error (.xl .Value)
      ∧ BIN2HEX (.Boolean b) .unused = .error (.xl .Value)
      ∧ OCT2BIN (.Boolean b) .unused = .error (.xl .Value)
      ∧ OCT2HEX (.Boolean b) .unused = .error (.xl .Value)
      ∧ HEX2BIN (.Boolean b) .unused = .error (.xl .Value)
      ∧ HEX2OCT (.Boolean b) .unused = .error (.xl .Value)
      ∧ BIN2DEC (.Boolean b) = .error (.xl .Value)
      ∧ OCT2DEC (.Boolean b) = .error (.xl .Value)
      ∧ HEX2DEC (.Boolean b) = .error (.xl .Value)
      ∧ DEC2BIN v (.supplied (.Boolean b)) = .error (.xl .Value)
      ∧ DEC2OCT v (.supplied (.Boolean b)) = .error (.xl .Value)
      ∧ DEC2HEX v (.supplied (.Boolean b)) = .error (.xl .Value)
      ∧ BIN2OCT v (.supplied (.Boolean b)) = .error (.xl .Value)
      ∧ BIN2HEX v (.supplied (.Boolean b)) = .error (.xl .Value)
      ∧ OCT2BIN v (.supplied (.Boolean b)) = .error (.xl .Value)
      ∧ OCT2HEX v (.supplied (.Boolean b)) = .error (.xl .Value)
      ∧ HEX2BIN v (.supplied (.Boolean b)) = .error (.xl .Value)
      ∧ HEX2OCT v (.supplied (.Boolean b)) = .error (.xl .Value) :=
  ⟨rfl, rfl, rfl, rfl, rfl, rfl, rfl, rfl, rfl, rfl, rfl, rfl,
    rfl, rfl, rfl, rfl, rfl, rfl, rfl, rfl, rfl⟩

/-- C8: evidence against the claim and the test suite's expectation.
An empty-string `number` reaches `int(as_str, radix)` as the empty
string in all base-to-base functions and in BIN2DEC and OCT2DEC, which
raises an uncaught host ValueError (a crash, not an Excel error); only
HEX2DEC (whose `if not number` branch covers the empty string) returns
0, and the three FROM-decimal functions fail with the Value-kind error
as the claim states. -/
theorem C8_empty_string_behavior :
    BIN2OCT (.Text "") .unused = .error .hostError
      ∧ BIN2HEX (.Text "") .unused = .error .hostError
      ∧ OCT2BIN (.Text "") .unused = .error .hostError
      ∧ OCT2HEX (.Text "") .unused = .error .hostError
      ∧ HEX2BIN (.Text "") .unused = .error .hostError
      ∧ HEX2OCT (.Text "") .unused = .error .hostError
      ∧ BIN2DEC (.Text "") = .error .hostError
      ∧ OCT2DEC (.Text "") = .error .hostError
      ∧ HEX2DEC (.Text "") = .ok 0
      ∧ DEC2BIN (.Text "") .unused = .error (.xl .Value)
      ∧ DEC2OCT (.Text "") .unused = .error (.xl .Value)
      ∧ DEC2HEX (.Text "") .unused = .error (.xl .Value) := by decide

/-- C9: (1) an explicitly supplied Blank `places` always takes the
coercion error path (int(Blank) = 0 fails the [1,10] range check with a
Num-kind error) and never behaves as unpadded, for every `number`;
(2) only the Unused sentinel yields the raw unpadded encoded string;
(3) for `number`, an explicit Blank behaves identically to "0" in all
twelve functions. -/
theorem C9_unused_vs_blank_places :
    (∀ v : XlValue,
        DEC2BIN v (.supplied .Blank) = .error (.xl .Num)
          ∧ DEC2OCT v (.supplied .Blank) = .error (.xl .Num)
          ∧ DEC2HEX v (.supplied .Blank) = .error (.xl .Num)
          ∧ BIN2OCT v (.supplied .Blank) = .error (.xl .Num)
          ∧ BIN2HEX v (.supplied .Blank) = .error (.xl .Num)
          ∧ OCT2BIN v (.supplied .Blank) = .error (.xl .Num)
          ∧ OCT2HEX v (.supplied .Blank) = .error (.xl .Num)
          ∧ HEX2BIN v (.supplied .Blank) = .error (.xl .Num)
          ∧ HEX2OCT v (.supplied .Blank) = .error (.xl .Num))
      ∧ ((∀ v (n : Int), DEC2BIN_core v = .ok n → DEC2BIN v .unused = .ok (rawEncode 2 10 n))
          ∧ (∀ v (n : Int), DEC2OCT_core v = .ok n →
              DEC2OCT v .unused = .ok (rawEncode 8 30 n))
          ∧ (∀ v (n : Int), DEC2HEX_core v = .ok n →
              DEC2HEX v .unused = .ok (rawEncode 16 40 n))
          ∧ (∀ v (n : Int), baseCore 2 10 (-(2 ^ 9)) (2 ^ 9) v = .ok n →
              BIN2OCT v .unused = .ok (rawEncode 8 30 n))
          ∧ (∀ v (n : Int), baseCore 2 10 (-(2 ^ 9)) (2 ^ 9) v = .ok n →
              BIN2HEX v .unused = .ok (rawEncode 16 40 n))
          ∧ (∀ v (n : Int), baseCore 8 30 (-512) 512 v = .ok n →
              OCT2BIN v .unused = .ok (rawEncode 2 10 n))
          ∧ (∀ v (n : Int), baseCore 8 30 (-(2 ^ 30)) (2 ^ 30) v = .ok n →
              OCT2HEX v .unused = .ok (rawEncode 16 40 n))
          ∧ (∀ v (n : Int), baseCore 16 40 (-(2 ^ 9)) (2 ^ 9) v = .ok n →
              HEX2BIN v .unused = .ok (rawEncode 2 10 n))
          ∧ (∀ v (n : Int), baseCore 16 40 (-(2 ^ 29)) (2 ^ 29) v = .ok n →
              HEX2OCT v .unused = .ok (rawEncode 8 30 n)))
      ∧ (∀ p : XlArg,
          DEC2BIN .Blank p = DEC2BIN (.Text "0") p
            ∧ DEC2OCT .Blank p = DEC2OCT (.Text "0") p
            ∧ DEC2HEX .Blank p = DEC2HEX (.Text "0") p
            ∧ BIN2OCT .Blank p = BIN2OCT (.Text "0") p
            ∧ BIN2HEX .Blank p = BIN2HEX (.Text "0") p
            ∧ OCT2BIN .Blank p = OCT2BIN (.Text "0") p
            ∧ OCT2HEX .Blank p = OCT2HEX (.Text "0") p
            ∧ HEX2BIN .Blank p = HEX2BIN (.Text "0") p
            ∧ HEX2OCT .Blank p = HEX2OCT (.Text "0") p
            ∧ BIN2DEC .Blank = BIN2DEC (.Text "0")
            ∧ OCT2DEC .Blank = OCT2DEC (.Text "0")
            ∧ HEX2DEC .Blank = HEX2DEC (.Text "0")) := by
  refine ⟨fun v => ⟨?_, ?_, ?_, ?_, ?_, ?_, ?_, ?_, ?_⟩,
    ⟨fun v n h => ?_, fun v n h => ?_, fun v n h => ?_, fun v n h => ?_, fun v n h => ?_,
      fun v n h => ?_, fun v n h => ?_, fun v n h => ?_, fun v n h => ?_⟩,
    fun p => ⟨?_, ?_, ?_, ?_, ?_, ?_, ?_, ?_, ?_, rfl, rfl, rfl⟩⟩
  · exact conv_blank_places ⟨DEC2BIN_core, 2, 10, false⟩ v
  · exact conv_blank_places ⟨DEC2OCT_core, 8, 30, false⟩ v
  · exact conv_blank_places ⟨DEC2HEX_core, 16, 40, true⟩ v
  · exact conv_blank_places ⟨baseCore 2 10 (-(2 ^ 9)) (2 ^ 9), 8, 30, true⟩ v
  · exact conv_blank_places ⟨baseCore 2 10 (-(2 ^ 9)) (2 ^ 9), 16, 40, true⟩ v
  · exact conv_blank_places ⟨baseCore 8 30 (-512) 512, 2, 10, true⟩ v
  · exact conv_blank_places ⟨baseCore 8 30 (-(2 ^ 30)) (2 ^ 30), 16, 40, false⟩ v
  · exact conv_blank_places ⟨baseCore 16 40 (-(2 ^ 9)) (2 ^ 9), 2, 10, true⟩ v
  · exact conv_blank_places ⟨baseCore 16 40 (-(2 ^ 29)) (2 ^ 29), 8, 30, true⟩ v
  · exact conv_unused ⟨DEC2BIN_core, 2, 10, false⟩ v n h
  · exact conv_unused ⟨DEC2OCT_core, 8, 30, false⟩ v n h
  · exact conv_unused ⟨DEC2HEX_core, 16, 40, true⟩ v n h
  · exact conv_unused ⟨baseCore 2 10 (-(2 ^ 9)) (2 ^ 9), 8, 30, true⟩ v n h
  · exact conv_unused ⟨baseCore 2 10 (-(2 ^ 9)) (2 ^ 9), 16, 40, true⟩ v n h
  · exact conv_unused ⟨baseCore 8 30 (-512) 512, 2, 10, true⟩ v n h
  · exact conv_unused ⟨baseCore 8 30 (-(2 ^ 30)) (2 ^ 30), 16, 40, false⟩ v n h
  · exact conv_unused ⟨baseCore 16 40 (-(2 ^ 9)) (2 ^ 9), 2, 10, true⟩ v n h
  · exact conv_unused ⟨baseCore 16 40 (-(2 ^ 29)) (2 ^ 29), 8, 30, true⟩ v n h
  · exact @applyConv_number_congr ⟨DEC2BIN_core, 2, 10, false⟩ .Blank (.Text "0") p rfl
  · exact @applyConv_number_congr ⟨DEC2OCT_core, 8, 30, false⟩ .Blank (.Text "0") p rfl
  · exact @applyConv_number_congr ⟨DEC2HEX_core, 16, 40, true⟩ .Blank (.Text "0") p rfl
  · exact @applyConv_number_congr ⟨baseCore 2 10 (-(2 ^ 9)) (2 ^ 9), 8, 30, true⟩
      .Blank (.Text "0") p rfl
  · exact @applyConv_number_congr ⟨baseCore 2 10 (-(2 ^ 9)) (2 ^ 9), 16, 40, true⟩
      .Blank (.Text "0") p rfl
  · exact @applyConv_number_congr ⟨baseCore 8 30 (-512) 512, 2, 10, true⟩
      .Blank (.Text "0") p rfl
  · exact @applyConv_number_congr ⟨baseCore 8 30 (-(2 ^ 30)) (2 ^ 30), 16, 40, false⟩
      .Blank (.Text "0") p rfl
  · exact @applyConv_number_congr ⟨baseCore 16 40 (-(2 ^ 9)) (2 ^ 9), 2, 10, true⟩
      .Blank (.Text "0") p rfl
  · exact @applyConv_number_congr ⟨baseCore 16 40 (-(2 ^ 29)) (2 ^ 29), 8, 30, true⟩
      .Blank (.Text "0") p rfl

/-- Witness for C9's Unused-gives-unpadded part at DEC2BIN(5). -/
theorem C9_unused_vs_blank_places_witness :
    DEC2BIN (.Number 5 true) .unused = .ok (rawEncode 2 10 5) :=
  C9_unused_vs_blank_places.2.1.1 (.Number 5 true) 5 (by decide)

/-- C10: every successful string result of the nine string-returning
conversion functions has length at most 10 and consists only of digits
of the target family's alphabet, for all `number` and `places`
arguments. -/
theorem C10_output_length_and_alphabet :
    (∀ v p s, DEC2BIN v p = .ok s → s.length ≤ 10 ∧ ∀ ch ∈ s.data, ch ∈ "01".data)
      ∧ (∀ v p s, DEC2OCT v p = .ok s →
          s.length ≤ 10 ∧ ∀ ch ∈ s.data, ch ∈ "01234567".data)
      ∧ (∀ v p s, DEC2HEX v p = .ok s →
          s.length ≤ 10 ∧ ∀ ch ∈ s.data, ch ∈ "0123456789ABCDEF".data)
      ∧ (∀ v p s, BIN2OCT v p = .ok s →
          s.length ≤ 10 ∧ ∀ ch ∈ s.data, ch ∈ "01234567".data)
      ∧ (∀ v p s, BIN2HEX v p = .ok s →
          s.length ≤ 10 ∧ ∀ ch ∈ s.data, ch ∈ "0123456789ABCDEF".data)
      ∧ (∀ v p s, OCT2BIN v p = .ok s → s.length ≤ 10 ∧ ∀ ch ∈ s.data, ch ∈ "01".data)
      ∧ (∀ v p s, OCT2HEX v p = .ok s →
          s.length ≤ 10 ∧ ∀ ch ∈ s.data, ch ∈ "0123456789ABCDEF".data)
      ∧ (∀ v p s, HEX2BIN v p = .ok s → s.length ≤ 10 ∧ ∀ ch ∈ s.data, ch ∈ "01".data)
      ∧ (∀ v p s, HEX2OCT v p = .ok s →
          s.length ≤ 10 ∧ ∀ ch ∈ s.data, ch ∈ "01234567".data) := by
  refine ⟨?_, ?_, ?_, ?_, ?_, ?_, ?_, ?_, ?_⟩
  · exact conv_ok_alpha ⟨DEC2BIN_core, 2, 10, false⟩ (-512) 512 "01"
      (fun _ _ h => DEC2BIN_core_ok_bounds h) (by norm_num) shift10_pow2 (by norm_num)
      (by decide) digitCharU_mem_bin
  · exact conv_ok_alpha ⟨DEC2OCT_core, 8, 30, false⟩ (-(2 ^ 29)) (2 ^ 29) "01234567"
      (fun _ _ h => DEC2OCT_core_ok_bounds h) (by norm_num) shift30_pow8 (by norm_num)
      (by decide) digitCharU_mem_oct
  · exact conv_ok_alpha ⟨DEC2HEX_core, 16, 40, true⟩ (-(2 ^ 39)) (2 ^ 39) "0123456789ABCDEF"
      (fun _ _ h => DEC2HEX_core_ok_bounds h) (by norm_num) shift40_pow16 (by norm_num)
      (by decide) digitCharU_mem_hex
  · exact conv_ok_alpha ⟨baseCore 2 10 (-(2 ^ 9)) (2 ^ 9), 8, 30, true⟩
      (-(2 ^ 9)) (2 ^ 9) "01234567"
      (fun _ _ h => baseCore_ok_bounds h) (by norm_num) shift30_pow8 (by norm_num)
      (by decide) digitCharU_mem_oct
  · exact conv_ok_alpha ⟨baseCore 2 10 (-(2 ^ 9)) (2 ^ 9), 16, 40, true⟩
      (-(2 ^ 9)) (2 ^ 9) "0123456789ABCDEF"
      (fun _ _ h => baseCore_ok_bounds h) (by norm_num) shift40_pow16 (by norm_num)
      (by decide) digitCharU_mem_hex
  · exact conv_ok_alpha ⟨baseCore 8 30 (-512) 512, 2, 10, true⟩ (-512) 512 "01"
      (fun _ _ h => baseCore_ok_bounds h) (by norm_num) shift10_pow2 (by norm_num)
      (by decide) digitCharU_mem_bin
  · exact conv_ok_alpha ⟨baseCore 8 30 (-(2 ^ 30)) (2 ^ 30), 16, 40, false⟩
      (-(2 ^ 30)) (2 ^ 30) "0123456789ABCDEF"
      (fun _ _ h => baseCore_ok_bounds h) (by norm_num) shift40_pow16 (by norm_num)
      (by decide) digitCharU_mem_hex
  · exact conv_ok_alpha ⟨baseCore 16 40 (-(2 ^ 9)) (2 ^ 9), 2, 10, true⟩ (-(2 ^ 9)) (2 ^ 9)
      "01" (fun _ _ h => baseCore_ok_bounds h) (by norm_num) shift10_pow2 (by norm_num)
      (by decide) digitCharU_mem_bin
  · exact conv_ok_alpha ⟨baseCore 16 40 (-(2 ^ 29)) (2 ^ 29), 8, 30, true⟩
      (-(2 ^ 29)) (2 ^ 29) "01234567"
      (fun _ _ h => baseCore_ok_bounds h) (by norm_num) shift30_pow8 (by norm_num)
      (by decide) digitCharU_mem_oct

/-- Witness for C10 at DEC2BIN(5) = "101". -/
theorem C10_output_length_and_alphabet_witness :
    ("101" : String).length ≤ 10 ∧ ∀ ch ∈ ("101" : String).data, ch ∈ "01".data :=
  C10_output_length_and_alphabet.1 (.Number 5 true) .unused "101" (by decide)
